import Mathlib

/-!
Shallow embedding of the Model Manager of the langchain_agent_project
repository (src/src/models/model_manager.py and src/src/models/model_tier.py),
with proofs of the specified properties.

The backend handle type (Python BaseLanguageModel) is never inspected by the
manager, so every definition is parametrised by a type alpha of handles.
Python dicts are embedded as association lists that keep insertion order and
unique keys: lookup returns the first matching entry, insertion overwrites
an existing key in place and otherwise appends.
-/

/-- Embeds class ModelTier(Enum) from model_tier.py: BASIC = 1, STANDARD = 2,
ADVANCED = 3, PREMIUM = 4. -/
inductive ModelTier where
  | BASIC
  | STANDARD
  | ADVANCED
  | PREMIUM
deriving DecidableEq

/-- Embeds the .value attribute of the ModelTier enumeration. -/
def tierValue : ModelTier → Nat
  | .BASIC => 1
  | .STANDARD => 2
  | .ADVANCED => 3
  | .PREMIUM => 4

/-- Embeds reversed(list(ModelTier)): declaration order is BASIC, STANDARD,
ADVANCED, PREMIUM, so the reversed iteration order is PREMIUM down to BASIC. -/
def tiersDesc : List ModelTier :=
  [.PREMIUM, .ADVANCED, .STANDARD, .BASIC]

/-- Embeds the tier sequence visited by the loop
while current_tier != BASIC: current_tier = ModelTier(current_tier.value - 1)
in get_fallback_model.  Tier values are the contiguous integers 1..4, so the
loop visits exactly the tiers strictly below the starting tier, in descending
value order. -/
def tiersBelow : ModelTier → List ModelTier
  | .BASIC => []
  | .STANDARD => [.BASIC]
  | .ADVANCED => [.STANDARD, .BASIC]
  | .PREMIUM => [.ADVANCED, .STANDARD, .BASIC]

/-- Embeds the exception classes of src/src/utils/exceptions.py that the
Model Manager raises. -/
inductive ModelError where
  | ModelNotFoundError (msg : String)
  | ModelConfigError (msg : String)
deriving DecidableEq

/-- Embeds @dataclass ModelInfo from model_manager.py. -/
structure ModelInfo (α : Type) where
  model : α
  tier : ModelTier
  is_available : Bool := true
  error_count : Nat := 0
  max_errors : Nat := 3
deriving DecidableEq

/-- Embeds the mutable state of class ModelManager: the models dict and the
fallback_chains mapping (set in init and never mutated afterwards). -/
structure ManagerState (α : Type) where
  models : List (String × ModelInfo α)
  fallback_chains : ModelTier → List String

/-- Python dict lookup self.models[k] combined with the membership test
k in self.models: the value at the first entry whose key equals k. -/
def dictLookup {β : Type} : List (String × β) → String → Option β
  | [], _ => none
  | p :: l, k => if p.1 = k then some p.2 else dictLookup l k

/-- Python dict assignment self.models[k] = v: overwrite in place when the key
is present, append otherwise (dict keys are unique and keep insertion order). -/
def dictInsert {β : Type} : List (String × β) → String → β → List (String × β)
  | [], k, v => [(k, v)]
  | p :: l, k, v => if p.1 = k then (k, v) :: l else p :: dictInsert l k v

/-- Python in-place mutation of the object stored at key k (entries with other
keys are untouched). -/
def dictModify {β : Type} : List (String × β) → String → (β → β) →
    List (String × β)
  | [], _, _ => []
  | p :: l, k, f =>
    if p.1 = k then (p.1, f p.2) :: dictModify l k f else p :: dictModify l k f

/-- Embeds the fallback_chains literal assigned in ModelManager.init. -/
def default_chains : ModelTier → List String
  | .PREMIUM => ["gpt-4", "claude-2", "gemini-ultra"]
  | .ADVANCED => ["gpt-3.5-turbo", "claude-instant-1", "command-nightly"]
  | .STANDARD => ["command-light-nightly", "gemini-pro"]
  | .BASIC => ["command-nightly-v2.0"]

/-- Manager state right after init sets self.models = empty dict and the
fallback chains, before any registration.  The environment-dependent default
registrations performed at construction time are ordinary
register_model calls and are covered by the operation sequences below. -/
def freshManager (α : Type) : ManagerState α :=
  { models := [], fallback_chains := default_chains }

/-- Embeds ModelManager.register_model: stores a fresh ModelInfo record with
the defaults is_available = true, error_count = 0, max_errors = 3. -/
def register_model {α : Type} (st : ManagerState α) (model_id : String)
    (model : α) (tier : ModelTier) : ManagerState α :=
  let info : ModelInfo α := { model := model, tier := tier }
  { st with models := dictInsert st.models model_id info }

/-- Embeds the body of the loops in get_fallback_model and
get_best_available_model: the candidate model_id is accepted when
model_id in self.models and self.models[model_id].is_available,
in which case the pair (model_id, self.models[model_id].model) is returned. -/
def chainScanFn {α : Type} (st : ManagerState α) (mid : String) :
    Option (String × α) :=
  match dictLookup st.models mid with
  | some info => if info.is_available then some (mid, info.model) else none
  | none => none

/-- Embeds the loop
for model_id in self.fallback_chains[tier]:
  if model_id in self.models and self.models[model_id].is_available:
    return model_id, self.models[model_id].model
shared by get_fallback_model and get_best_available_model. -/
def scanChain {α : Type} (st : ManagerState α) (tier : ModelTier) :
    Option (String × α) :=
  (st.fallback_chains tier).findSome? (chainScanFn st)

/-- Embeds ModelManager.get_best_available_model: scan the tiers from PREMIUM
down to BASIC, each chain in priority order; raise ModelNotFoundError when
nothing is found. -/
def get_best_available_model {α : Type} (st : ManagerState α) :
    Except ModelError (String × α) :=
  match tiersDesc.findSome? (fun tier => scanChain st tier) with
  | some r => Except.ok r
  | none => Except.error (ModelError.ModelNotFoundError "No models available")

/-- Embeds ModelManager.get_fallback_model: unregistered ids resolve via
get_best_available_model; otherwise scan the chain of the original tier, then
the chains of the tiers strictly below it, and raise when all fail. -/
def get_fallback_model {α : Type} (st : ManagerState α)
    (original_model_id : String) : Except ModelError (String × α) :=
  match dictLookup st.models original_model_id with
  | none => get_best_available_model st
  | some info =>
    match scanChain st info.tier with
    | some r => Except.ok r
    | none =>
      match (tiersBelow info.tier).findSome? (fun tier => scanChain st tier) with
      | some r => Except.ok r
      | none =>
        Except.error (ModelError.ModelNotFoundError "No fallback models available")

/-- Embeds ModelManager.get_model. -/
def get_model {α : Type} (st : ManagerState α) (model_id : String)
    (use_fallback : Bool := true) : Except ModelError (String × α) :=
  match dictLookup st.models model_id with
  | none =>
    if !use_fallback then
      Except.error (ModelError.ModelNotFoundError "Model not found")
    else
      get_fallback_model st model_id
  | some info =>
    if !info.is_available then
      if !use_fallback then
        Except.error (ModelError.ModelNotFoundError "Model is currently unavailable")
      else
        get_fallback_model st model_id
    else
      Except.ok (model_id, info.model)

/-- Embeds ModelManager.mark_model_error: no-op on unknown ids, otherwise
increment error_count and flip is_available to false once the count reaches
max_errors. -/
def mark_model_error {α : Type} (st : ManagerState α) (model_id : String) :
    ManagerState α :=
  match dictLookup st.models model_id with
  | none => st
  | some _ =>
    { st with models := dictModify st.models model_id (fun info =>
        let info' := { info with error_count := info.error_count + 1 }
        if info'.error_count ≥ info'.max_errors then
          { info' with is_available := false }
        else
          info') }

/-- Embeds ModelManager.reset_model_status: no-op on unknown ids, otherwise
set error_count to 0 and is_available to true. -/
def reset_model_status {α : Type} (st : ManagerState α) (model_id : String) :
    ManagerState α :=
  match dictLookup st.models model_id with
  | none => st
  | some _ =>
    { st with models := dictModify st.models model_id (fun info =>
        { info with error_count := 0, is_available := true }) }

/-- Embeds ModelManager.get_model_tier. -/
def get_model_tier {α : Type} (st : ManagerState α) (model_id : String) :
    Option ModelTier :=
  (dictLookup st.models model_id).map (fun info => info.tier)

/-- Embeds ModelManager.list_available_models. -/
def list_available_models {α : Type} (st : ManagerState α)
    (tier : Option ModelTier := none) : List String :=
  match tier with
  | none =>
    (st.models.filter (fun p => p.2.is_available)).map (fun p => p.1)
  | some t =>
    (st.models.filter (fun p => p.2.is_available && (p.2.tier == t))).map
      (fun p => p.1)

/-- Operations a client can perform on a manager; get_model mutates nothing
(its body only reads self.models and self.fallback_chains). -/
inductive MOp (α : Type) where
  | registerOp (model_id : String) (model : α) (tier : ModelTier)
  | getModelOp (model_id : String) (use_fallback : Bool)
  | markErrorOp (model_id : String)
  | resetOp (model_id : String)

/-- State transition of one operation. -/
def applyOp {α : Type} (st : ManagerState α) : MOp α → ManagerState α
  | .registerOp model_id model tier => register_model st model_id model tier
  | .getModelOp _ _ => st
  | .markErrorOp model_id => mark_model_error st model_id
  | .resetOp model_id => reset_model_status st model_id

/-- States reachable from a fresh manager by a sequence of operations. -/
def Reachable {α : Type} (st : ManagerState α) : Prop :=
  ∃ ops : List (MOp α), st = ops.foldl applyOp (freshManager α)

/-- A model id that is registered and whose record is available; this is the
acceptance condition the chain scans test on each candidate. -/
def regAvail {α : Type} (st : ManagerState α) (mid : String) : Bool :=
  match dictLookup st.models mid with
  | some info => info.is_available
  | none => false

/-- Modelled from the spec wording for the fallback scan of a single tier:
the first candidate id of the chain of tier t that is both registered and
available. -/
def specFirstAvail {α : Type} (st : ManagerState α) (t : ModelTier) :
    Option String :=
  ((st.fallback_chains t).filter (fun mid => regAvail st mid)).head?

/-- Modelled from the spec wording for the downward walk: the first
registered-and-available candidate found while walking the tiers strictly
below t in descending order, scanning each chain in priority order. -/
def specFirstAvailBelow {α : Type} (st : ManagerState α) (t : ModelTier) :
    Option String :=
  ((tiersBelow t).flatMap
    (fun u => (st.fallback_chains u).filter (fun mid => regAvail st mid))).head?

/-- Modelled from the spec wording for best-available selection: the first
registered-and-available candidate scanning tiers from PREMIUM down to BASIC,
each chain in priority order. -/
def specBestAvail {α : Type} (st : ManagerState α) : Option String :=
  (tiersDesc.flatMap
    (fun u => (st.fallback_chains u).filter (fun mid => regAvail st mid))).head?

/-- The record invariant of the spec: a registered record whose error count is
still below its threshold is available. -/
def recordsInv {α : Type} (st : ManagerState α) : Prop :=
  ∀ p ∈ st.models, p.2.error_count < p.2.max_errors → p.2.is_available = true

/-- The tier that anchors fallback resolution for a requested id: the tier of
its record when registered, and PREMIUM (the top of the downward scan of
get_best_available_model) when not. -/
def relevantTier {α : Type} (st : ManagerState α) (x : String) : ModelTier :=
  match dictLookup st.models x with
  | some i => i.tier
  | none => ModelTier.PREMIUM

/-- A concrete manager with a registered-but-unavailable PREMIUM model a and
an available PREMIUM model b next in the chain. -/
def stW1 : ManagerState Nat where
  models := [("a", { model := 1, tier := ModelTier.PREMIUM, is_available := false, error_count := 3, max_errors := 3 }), ("b", { model := 2, tier := ModelTier.PREMIUM })]
  fallback_chains := fun t =>
    match t with
    | ModelTier.PREMIUM => ["a", "b"]
    | _ => []

/-- The claim of C3 as stated: best-available selection fails exactly when
the registry holds no available model at all. -/
def c3Claim : Prop :=
  ∀ st : ManagerState Nat,
    (∃ msg, get_best_available_model st
        = Except.error (ModelError.ModelNotFoundError msg))
      ↔ list_available_models st none = []

/-- A registry holding one available model whose id occurs in no fallback
chain. -/
def stFoo : ManagerState Nat where
  models := [("foo", { model := 7, tier := ModelTier.PREMIUM })]
  fallback_chains := default_chains

/-- Operation sequence that registers gpt-4 and marks it to its error
threshold. -/
def opsDead : List (MOp Nat) :=
  [MOp.registerOp "gpt-4" 1 ModelTier.PREMIUM, MOp.markErrorOp "gpt-4",
   MOp.markErrorOp "gpt-4", MOp.markErrorOp "gpt-4"]

/-- The state reached by opsDead: gpt-4 registered and unavailable. -/
def stDead : ManagerState Nat := opsDead.foldl applyOp (freshManager Nat)

/-- The claim of C4 as stated: once a record is unavailable it stays
unavailable under every operation other than an explicit reset of that id. -/
def c4StaysClaim : Prop :=
  ∀ (st : ManagerState Nat) (x : String) (i : ModelInfo Nat),
    Reachable st → dictLookup st.models x = some i → i.is_available = false →
    ∀ op : MOp Nat, op ≠ MOp.resetOp x →
    ∀ i', dictLookup (applyOp st op).models x = some i'
      → i'.is_available = false

/-- A fresh manager with one registered BASIC model m. -/
def stC5 : ManagerState Nat :=
  register_model (freshManager Nat) "m" 5 ModelTier.BASIC

/-- The claim of C6 as stated over every manager state: an unregistered id
raises without fallback and resolves to some registered, available model with
fallback. -/
def c6Claim : Prop :=
  ∀ (st : ManagerState Nat) (x : String),
    dictLookup st.models x = none →
    (∃ msg, get_model st x false
        = Except.error (ModelError.ModelNotFoundError msg))
    ∧ ∃ y h, get_model st x true = Except.ok (y, h)
        ∧ ∃ i, dictLookup st.models y = some i ∧ i.is_available = true

lemma dictLookup_insert {β : Type} (l : List (String × β)) (k : String) (v : β)
    (k' : String) :
    dictLookup (dictInsert l k v) k'
      = if k' = k then some v else dictLookup l k' := by
  induction l with
  | nil =>
    by_cases hk : k' = k
    · simp [dictInsert, dictLookup, hk]
    · have hk2 : ¬ k = k' := fun h => hk h.symm
      simp [dictInsert, dictLookup, hk, hk2]
  | cons p l ih =>
    by_cases hp : p.1 = k
    · by_cases hk : k' = k
      · simp [dictInsert, dictLookup, hp, hk]
      · have hk2 : ¬ k = k' := fun h => hk h.symm
        have hp2 : ¬ p.1 = k' := fun h => hk (h ▸ hp ▸ rfl)
        simp [dictInsert, dictLookup, hp, hk, hk2, hp2]
    · by_cases hp' : p.1 = k'
      · have hk : ¬ k' = k := fun h => hp (hp'.trans h)
        simp [dictInsert, dictLookup, hp, hp', hk]
      · simp [dictInsert, dictLookup, hp, hp', ih]

lemma dictLookup_modify {β : Type} (l : List (String × β)) (k : String)
    (f : β → β) (k' : String) :
    dictLookup (dictModify l k f) k'
      = if k' = k then (dictLookup l k).map f else dictLookup l k' := by
  induction l with
  | nil => by_cases hk : k' = k <;> simp [dictModify, dictLookup, hk]
  | cons p l ih =>
    by_cases hp : p.1 = k
    · by_cases hk : k' = k
      · simp [dictModify, dictLookup, hp, hk]
      · have hk2 : ¬ k = k' := fun h => hk h.symm
        have hp2 : ¬ p.1 = k' := fun h => hk (h ▸ hp ▸ rfl)
        simp [dictModify, dictLookup, hp, hk, hk2, hp2, ih]
    · by_cases hp' : p.1 = k'
      · have hk : ¬ k' = k := fun h => hp (hp'.trans h)
        simp [dictModify, dictLookup, hp, hp', hk]
      · simp [dictModify, dictLookup, hp, hp', ih]

lemma dictModify_keys {β : Type} (l : List (String × β)) (k : String)
    (f : β → β) :
    (dictModify l k f).map Prod.fst = l.map Prod.fst := by
  induction l with
  | nil => simp [dictModify]
  | cons p l ih =>
    by_cases hp : p.1 = k <;> simp [dictModify, hp, ih]

lemma head?_append {γ : Type} (l l' : List γ) :
    (l ++ l').head? = l.head?.or l'.head? := by
  cases l <;> simp

lemma chainScanFn_some {α : Type} (st : ManagerState α) (mid y : String)
    (h : α) (hs : chainScanFn st mid = some (y, h)) :
    mid = y ∧ ∃ i, dictLookup st.models y = some i ∧ i.is_available = true
      ∧ i.model = h := by
  unfold chainScanFn at hs
  cases hl : dictLookup st.models mid with
  | none => rw [hl] at hs; cases hs
  | some i =>
    rw [hl] at hs
    have hs' : (if i.is_available = true then some (mid, i.model) else none)
        = some (y, h) := hs
    by_cases hav : i.is_available = true
    · rw [if_pos hav] at hs'
      have hpair : mid = y ∧ i.model = h := by
        simpa using hs'
      exact ⟨hpair.1, hpair.1 ▸ ⟨i, hl, hav, hpair.2⟩⟩
    · rw [if_neg hav] at hs'
      cases hs'

lemma findSome?_chain_fst {α : Type} (st : ManagerState α) (l : List String) :
    (l.findSome? (chainScanFn st)).map Prod.fst
      = (l.filter (fun mid => regAvail st mid)).head? := by
  induction l with
  | nil => simp
  | cons a l ih =>
    cases hl : dictLookup st.models a with
    | none =>
      simp [List.findSome?_cons, List.filter_cons, chainScanFn, regAvail, hl, ih]
    | some i =>
      cases hav : i.is_available <;>
        simp [List.findSome?_cons, List.filter_cons, chainScanFn, regAvail,
          hl, hav, ih]

lemma scanChain_fst {α : Type} (st : ManagerState α) (t : ModelTier) :
    (scanChain st t).map Prod.fst = specFirstAvail st t :=
  findSome?_chain_fst st (st.fallback_chains t)

lemma scanChain_some {α : Type} (st : ManagerState α) (t : ModelTier)
    (y : String) (h : α) (hs : scanChain st t = some (y, h)) :
    y ∈ st.fallback_chains t ∧ ∃ i, dictLookup st.models y = some i
      ∧ i.is_available = true ∧ i.model = h := by
  obtain ⟨a, ha, hfa⟩ := List.exists_of_findSome?_eq_some hs
  obtain ⟨hay, hrest⟩ := chainScanFn_some st a y h hfa
  exact ⟨hay ▸ ha, hrest⟩

lemma scanChain_none_iff {α : Type} (st : ManagerState α) (t : ModelTier) :
    scanChain st t = none
      ↔ (st.fallback_chains t).filter (fun mid => regAvail st mid) = [] := by
  constructor
  · intro h
    have hfst := scanChain_fst st t
    rw [h] at hfst
    unfold specFirstAvail at hfst
    simp only [Option.map_none'] at hfst
    exact List.head?_eq_none_iff.mp hfst.symm
  · intro h
    have hfst := scanChain_fst st t
    unfold specFirstAvail at hfst
    rw [h] at hfst
    simp only [List.head?_nil] at hfst
    cases hsc : scanChain st t with
    | none => rfl
    | some p => rw [hsc] at hfst; simp at hfst

lemma tiersFind_fst {α : Type} (st : ManagerState α) (ts : List ModelTier) :
    ((ts.findSome? (fun u => scanChain st u)).map Prod.fst)
      = (ts.flatMap
          (fun u => (st.fallback_chains u).filter (fun mid => regAvail st mid))).head? := by
  induction ts with
  | nil => simp
  | cons t ts ih =>
    cases h : scanChain st t with
    | some p =>
      have hfst := scanChain_fst st t
      rw [h] at hfst
      simp only [Option.map_some'] at hfst
      unfold specFirstAvail at hfst
      simp only [List.findSome?_cons, h, List.flatMap_cons, head?_append]
      rw [← hfst]
      rfl
    | none =>
      have hnil := (scanChain_none_iff st t).mp h
      simp only [List.findSome?_cons, h, List.flatMap_cons, hnil,
        List.nil_append]
      exact ih

lemma mem_tiersBelow_iff (t u : ModelTier) :
    tierValue u ≤ tierValue t ↔ (u = t ∨ u ∈ tiersBelow t) := by
  cases t <;> cases u <;> decide

lemma tiersBelow_lt (t u : ModelTier) (h : u ∈ tiersBelow t) :
    tierValue u < tierValue t := by
  cases t <;> cases u <;> first | decide | (exact absurd h (by decide))

lemma mem_tiersDesc (t : ModelTier) : t ∈ tiersDesc := by
  cases t <;> decide

lemma tierValue_le_premium (t : ModelTier) :
    tierValue t ≤ tierValue ModelTier.PREMIUM := by
  cases t <;> decide

lemma mem_map_fst_filter {α : Type} (l : List (String × ModelInfo α))
    (q : String × ModelInfo α → Bool) (x : String)
    (hx : x ∈ (l.filter q).map Prod.fst) : x ∈ l.map Prod.fst := by
  obtain ⟨p, hp, rfl⟩ := List.mem_map.mp hx
  exact List.mem_map.mpr ⟨p, (List.mem_filter.mp hp).1, rfl⟩

lemma mem_list_available {α : Type} (st : ManagerState α) (x : String)
    (hnd : (st.models.map Prod.fst).Nodup) :
    x ∈ list_available_models st none
      ↔ ∃ i, dictLookup st.models x = some i ∧ i.is_available = true := by
  have main : ∀ l : List (String × ModelInfo α), (l.map Prod.fst).Nodup →
      (x ∈ (l.filter (fun p => p.2.is_available)).map Prod.fst
        ↔ ∃ i, dictLookup l x = some i ∧ i.is_available = true) := by
    intro l
    induction l with
    | nil => intro _; simp [dictLookup]
    | cons p l ih =>
      intro hnd
      rw [List.map_cons, List.nodup_cons] at hnd
      obtain ⟨hnotin, hnd'⟩ := hnd
      by_cases hp : p.1 = x
      · cases hav : p.2.is_available with
        | false =>
          have hxnot : x ∉ (l.filter (fun p => p.2.is_available)).map Prod.fst :=
            fun hmem => hnotin (hp ▸ mem_map_fst_filter l _ x hmem)
          simp [List.filter_cons, hav, dictLookup, hp, hxnot]
        | true =>
          simp [List.filter_cons, hav, dictLookup, hp]
      · have hp2 : ¬ x = p.1 := fun h => hp h.symm
        cases hav : p.2.is_available with
        | false =>
          simpa [List.filter_cons, hav, dictLookup, hp] using ih hnd'
        | true =>
          simpa [List.filter_cons, hav, dictLookup, hp, hp2] using ih hnd'
  exact main st.models hnd

lemma register_lookup {α : Type} (st : ManagerState α) (x : String) (m : α)
    (t : ModelTier) (y : String) :
    dictLookup (register_model st x m t).models y
      = if y = x then some { model := m, tier := t } else dictLookup st.models y := by
  unfold register_model
  exact dictLookup_insert st.models x _ y

lemma mark_lookup_self {α : Type} (st : ManagerState α) (x : String)
    (i : ModelInfo α) (hx : dictLookup st.models x = some i) :
    dictLookup (mark_model_error st x).models x
      = some (if i.error_count + 1 ≥ i.max_errors
          then { i with error_count := i.error_count + 1, is_available := false }
          else { i with error_count := i.error_count + 1 }) := by
  unfold mark_model_error
  rw [hx]
  simp [dictLookup_modify, hx]

lemma mark_lookup_other {α : Type} (st : ManagerState α) (x y : String)
    (hne : y ≠ x) :
    dictLookup (mark_model_error st x).models y = dictLookup st.models y := by
  unfold mark_model_error
  cases hx : dictLookup st.models x with
  | none => rfl
  | some i => simp only [dictLookup_modify, if_neg hne]

lemma mark_unknown {α : Type} (st : ManagerState α) (x : String)
    (hx : dictLookup st.models x = none) : mark_model_error st x = st := by
  unfold mark_model_error
  rw [hx]

lemma reset_lookup_self {α : Type} (st : ManagerState α) (x : String)
    (i : ModelInfo α) (hx : dictLookup st.models x = some i) :
    dictLookup (reset_model_status st x).models x
      = some { i with error_count := 0, is_available := true } := by
  unfold reset_model_status
  rw [hx]
  simp [dictLookup_modify, hx]

lemma reset_lookup_other {α : Type} (st : ManagerState α) (x y : String)
    (hne : y ≠ x) :
    dictLookup (reset_model_status st x).models y = dictLookup st.models y := by
  unfold reset_model_status
  cases hx : dictLookup st.models x with
  | none => rfl
  | some i => simp only [dictLookup_modify, if_neg hne]

lemma best_available_ok {α : Type} (st : ManagerState α) (y : String) (h : α)
    (hb : get_best_available_model st = Except.ok (y, h)) :
    (∃ t : ModelTier, y ∈ st.fallback_chains t)
      ∧ ∃ i, dictLookup st.models y = some i ∧ i.is_available = true
        ∧ i.model = h := by
  unfold get_best_available_model at hb
  cases hfs : tiersDesc.findSome? (fun tier => scanChain st tier) with
  | none => rw [hfs] at hb; cases hb
  | some r =>
    rw [hfs] at hb
    have hr : r = (y, h) := by simpa using hb
    subst hr
    obtain ⟨u, _, hu⟩ := List.exists_of_findSome?_eq_some hfs
    obtain ⟨hmem, hreg⟩ := scanChain_some st u y h hu
    exact ⟨⟨u, hmem⟩, hreg⟩

lemma best_available_error_iff {α : Type} (st : ManagerState α) :
    (∃ msg, get_best_available_model st
        = Except.error (ModelError.ModelNotFoundError msg))
      ↔ ∀ t : ModelTier, scanChain st t = none := by
  cases hfs : tiersDesc.findSome? (fun tier => scanChain st tier) with
  | some r =>
    constructor
    · intro ⟨msg, hm⟩
      unfold get_best_available_model at hm
      rw [hfs] at hm
      cases hm
    · intro hall
      obtain ⟨u, _, hu⟩ := List.exists_of_findSome?_eq_some hfs
      rw [hall u] at hu
      cases hu
  | none =>
    constructor
    · intro _ t
      exact List.findSome?_eq_none_iff.mp hfs t (mem_tiersDesc t)
    · intro _
      refine ⟨"No models available", ?_⟩
      unfold get_best_available_model
      rw [hfs]

lemma dictInsert_mem {β : Type} (l : List (String × β)) (k : String) (v : β) :
    ∀ p ∈ dictInsert l k v, p ∈ l ∨ p = (k, v) := by
  induction l with
  | nil => intro p hp; simp [dictInsert] at hp; exact Or.inr hp
  | cons q l ih =>
    intro p hp
    by_cases hq : q.1 = k
    · simp only [dictInsert, if_pos hq, List.mem_cons] at hp
      rcases hp with h | h
      · exact Or.inr h
      · exact Or.inl (List.mem_cons_of_mem q h)
    · simp only [dictInsert, if_neg hq, List.mem_cons] at hp
      rcases hp with h | h
      · exact Or.inl (h ▸ List.mem_cons_self q l)
      · rcases ih p h with h' | h'
        · exact Or.inl (List.mem_cons_of_mem q h')
        · exact Or.inr h'

lemma dictModify_mem {β : Type} (l : List (String × β)) (k : String)
    (f : β → β) :
    ∀ p ∈ dictModify l k f, p ∈ l ∨ ∃ q ∈ l, p = (q.1, f q.2) := by
  induction l with
  | nil => intro p hp; simp [dictModify] at hp
  | cons q l ih =>
    intro p hp
    by_cases hq : q.1 = k
    · simp only [dictModify, if_pos hq, List.mem_cons] at hp
      rcases hp with h | h
      · exact Or.inr ⟨q, List.mem_cons_self q l, h⟩
      · rcases ih p h with h' | ⟨q', hq', h'⟩
        · exact Or.inl (List.mem_cons_of_mem q h')
        · exact Or.inr ⟨q', List.mem_cons_of_mem q hq', h'⟩
    · simp only [dictModify, if_neg hq, List.mem_cons] at hp
      rcases hp with h | h
      · exact Or.inl (h ▸ List.mem_cons_self q l)
      · rcases ih p h with h' | ⟨q', hq', h'⟩
        · exact Or.inl (List.mem_cons_of_mem q h')
        · exact Or.inr ⟨q', List.mem_cons_of_mem q hq', h'⟩

lemma mark_models_eq {α : Type} (st : ManagerState α) (x : String)
    (i : ModelInfo α) (hx : dictLookup st.models x = some i) :
    (mark_model_error st x).models
      = dictModify st.models x (fun info =>
          if info.error_count + 1 ≥ info.max_errors
          then { info with error_count := info.error_count + 1, is_available := false }
          else { info with error_count := info.error_count + 1 }) := by
  unfold mark_model_error
  rw [hx]

lemma reset_models_eq {α : Type} (st : ManagerState α) (x : String)
    (i : ModelInfo α) (hx : dictLookup st.models x = some i) :
    (reset_model_status st x).models
      = dictModify st.models x (fun info =>
          { info with error_count := 0, is_available := true }) := by
  unfold reset_model_status
  rw [hx]

lemma reset_unknown {α : Type} (st : ManagerState α) (x : String)
    (hx : dictLookup st.models x = none) : reset_model_status st x = st := by
  unfold reset_model_status
  rw [hx]

lemma recordsInv_applyOp {α : Type} (st : ManagerState α) (op : MOp α)
    (h : recordsInv st) : recordsInv (applyOp st op) := by
  cases op with
  | registerOp x m t =>
    intro p hp
    rcases dictInsert_mem st.models x _ p hp with hmem | hmem
    · exact h p hmem
    · intro _
      rw [hmem]
  | getModelOp x fb => exact h
  | markErrorOp x =>
    show recordsInv (mark_model_error st x)
    cases hx : dictLookup st.models x with
    | none => rw [mark_unknown st x hx]; exact h
    | some i =>
      intro p hp
      rw [mark_models_eq st x i hx] at hp
      rcases dictModify_mem st.models x _ p hp with hmem | ⟨q, hq, hpq⟩
      · exact h p hmem
      · subst hpq
        by_cases hth : q.2.error_count + 1 ≥ q.2.max_errors
        · intro hlt
          rw [if_pos hth] at hlt
          exact absurd hlt (by simpa using hth)
        · intro _
          rw [if_neg hth]
          exact h q hq (Nat.lt_of_succ_lt (Nat.lt_of_not_le hth))
  | resetOp x =>
    show recordsInv (reset_model_status st x)
    cases hx : dictLookup st.models x with
    | none => rw [reset_unknown st x hx]; exact h
    | some i =>
      intro p hp
      rw [reset_models_eq st x i hx] at hp
      rcases dictModify_mem st.models x _ p hp with hmem | ⟨q, hq, hpq⟩
      · exact h p hmem
      · subst hpq
        intro _
        rfl

lemma reachable_recordsInv {α : Type} (st : ManagerState α)
    (h : Reachable st) : recordsInv st := by
  obtain ⟨ops, rfl⟩ := h
  have main : ∀ (ops : List (MOp α)) (st0 : ManagerState α), recordsInv st0 →
      recordsInv (ops.foldl applyOp st0) := by
    intro ops
    induction ops with
    | nil => intro st0 h0; exact h0
    | cons op ops ih =>
      intro st0 h0
      exact ih (applyOp st0 op) (recordsInv_applyOp st0 op h0)
  exact main ops (freshManager α) (by intro p hp; cases hp)

lemma get_fallback_unreg {α : Type} (st : ManagerState α) (x : String)
    (hx : dictLookup st.models x = none) :
    get_fallback_model st x = get_best_available_model st := by
  unfold get_fallback_model
  rw [hx]

lemma get_fallback_reg {α : Type} (st : ManagerState α) (x : String)
    (i : ModelInfo α) (hx : dictLookup st.models x = some i) :
    get_fallback_model st x
      = match scanChain st i.tier with
        | some r => Except.ok r
        | none =>
          match (tiersBelow i.tier).findSome? (fun tier => scanChain st tier) with
          | some r => Except.ok r
          | none =>
            Except.error
              (ModelError.ModelNotFoundError "No fallback models available") := by
  unfold get_fallback_model
  rw [hx]

lemma get_model_unreg {α : Type} (st : ManagerState α) (x : String) (fb : Bool)
    (hx : dictLookup st.models x = none) :
    get_model st x fb
      = if !fb then Except.error (ModelError.ModelNotFoundError "Model not found")
        else get_fallback_model st x := by
  unfold get_model
  rw [hx]

lemma get_model_reg {α : Type} (st : ManagerState α) (x : String) (fb : Bool)
    (i : ModelInfo α) (hx : dictLookup st.models x = some i) :
    get_model st x fb
      = if !i.is_available then
          if !fb then
            Except.error
              (ModelError.ModelNotFoundError "Model is currently unavailable")
          else get_fallback_model st x
        else Except.ok (x, i.model) := by
  unfold get_model
  rw [hx]

/-- C10: get_model, together with the fallback and best-available paths and
the error paths, mutates nothing: the records mapping and the fallback
chains are identical before and after the call.  The bodies of get_model,
get_fallback_model and get_best_available_model contain no assignment, so the
operation leaves the manager state unchanged. -/
theorem C10_get_model_no_mutation {α : Type} (st : ManagerState α)
    (x : String) (fb : Bool) :
    (applyOp st (MOp.getModelOp x fb)).models = st.models
      ∧ ∀ t, (applyOp st (MOp.getModelOp x fb)).fallback_chains t
          = st.fallback_chains t :=
  ⟨rfl, fun _ => rfl⟩

/-- C8: registering a model and immediately fetching the same id returns the
pair (id, handle) unchanged, for either value of use_fallback. -/
theorem C8_register_then_get_model {α : Type} (st : ManagerState α)
    (x : String) (m : α) (t : ModelTier) (fb : Bool) :
    get_model (register_model st x m t) x fb = Except.ok (x, m) := by
  rw [get_model_reg (register_model st x m t) x fb { model := m, tier := t }
    (by rw [register_lookup st x m t x, if_pos rfl])]
  rfl

/-- C9: whenever fallback resolution or best-available selection succeeds,
the returned id occurs in some tier fallback chain; a registered, available
model that appears in no chain is never returned by either. -/
theorem C9_resolved_id_in_some_chain {α : Type} (st : ManagerState α) :
    (∀ x y h, get_fallback_model st x = Except.ok (y, h)
        → ∃ t : ModelTier, y ∈ st.fallback_chains t)
      ∧ (∀ y h, get_best_available_model st = Except.ok (y, h)
        → ∃ t : ModelTier, y ∈ st.fallback_chains t) := by
  constructor
  · intro x y h heq
    cases hl : dictLookup st.models x with
    | none =>
      rw [get_fallback_unreg st x hl] at heq
      exact (best_available_ok st y h heq).1
    | some i =>
      rw [get_fallback_reg st x i hl] at heq
      cases h1 : scanChain st i.tier with
      | some r =>
        rw [h1] at heq
        have hr : r = (y, h) := by simpa using heq
        exact ⟨i.tier, (scanChain_some st i.tier y h (hr ▸ h1)).1⟩
      | none =>
        rw [h1] at heq
        cases h2 : (tiersBelow i.tier).findSome? (fun tier => scanChain st tier) with
        | some r =>
          rw [h2] at heq
          have hr : r = (y, h) := by simpa using heq
          obtain ⟨u, _, hu⟩ := List.exists_of_findSome?_eq_some (hr ▸ h2)
          exact ⟨u, (scanChain_some st u y h hu).1⟩
        | none =>
          rw [h2] at heq
          cases heq
  · intro y h heq
    exact (best_available_ok st y h heq).1

/-- C7: mark_model_error never raises (it is a total state transformer): it
leaves the state unchanged on unknown ids, otherwise increments the error
count of that record, flipping is_available to false exactly when the count
reaches max_errors, and leaves other records unchanged; and no operation
other than mark_model_error ever changes a registered record from available
to unavailable. -/
theorem C7_mark_model_error_semantics {α : Type} (st : ManagerState α) :
    (∀ x, dictLookup st.models x = none → mark_model_error st x = st)
      ∧ (∀ x i, dictLookup st.models x = some i →
          dictLookup (mark_model_error st x).models x
            = some (if i.error_count + 1 ≥ i.max_errors
                then { i with error_count := i.error_count + 1, is_available := false }
                else { i with error_count := i.error_count + 1 })
          ∧ ∀ y, y ≠ x →
              dictLookup (mark_model_error st x).models y = dictLookup st.models y)
      ∧ (∀ op : MOp α, (∀ y, op ≠ MOp.markErrorOp y) →
          ∀ x i, dictLookup st.models x = some i → i.is_available = true →
          ∀ i', dictLookup (applyOp st op).models x = some i'
            → i'.is_available = true) := by
  refine ⟨fun x hx => mark_unknown st x hx, fun x i hx => ⟨?_, ?_⟩, ?_⟩
  · rw [mark_lookup_self st x i hx]
  · intro y hy
    exact mark_lookup_other st x y hy
  · intro op hop x i hx hav i' hx'
    cases op with
    | markErrorOp y => exact absurd rfl (hop y)
    | getModelOp y fb =>
      have hii : i = i' := by
        have := hx.symm.trans hx'
        simpa using this
      rw [← hii]
      exact hav
    | registerOp y m t =>
      rw [show applyOp st (MOp.registerOp y m t) = register_model st y m t from rfl,
        register_lookup st y m t x] at hx'
      by_cases hxy : x = y
      · rw [if_pos hxy] at hx'
        have : ({ model := m, tier := t } : ModelInfo α) = i' := by simpa using hx'
        rw [← this]
      · rw [if_neg hxy] at hx'
        have hii : i = i' := by
          have := hx.symm.trans hx'
          simpa using this
        rw [← hii]
        exact hav
    | resetOp y =>
      rw [show applyOp st (MOp.resetOp y) = reset_model_status st y from rfl] at hx'
      by_cases hxy : x = y
      · subst hxy
        rw [reset_lookup_self st x i hx] at hx'
        have : ({ i with error_count := 0, is_available := true } : ModelInfo α)
            = i' := by simpa using hx'
        rw [← this]
      · rw [reset_lookup_other st y x hxy] at hx'
        have hii : i = i' := by
          have := hx.symm.trans hx'
          simpa using this
        rw [← hii]
        exact hav

/-- Witness for C7 at a concrete input: marking an unknown id on a fresh
manager leaves the state unchanged. -/
theorem C7_witness :
    mark_model_error (freshManager Nat) "gpt-4" = freshManager Nat :=
  (C7_mark_model_error_semantics (freshManager Nat)).1 "gpt-4" rfl

lemma best_error_form {α : Type} (st : ManagerState α) (e : ModelError)
    (h : get_best_available_model st = Except.error e) :
    ∃ msg, e = ModelError.ModelNotFoundError msg := by
  unfold get_best_available_model at h
  cases hfs : tiersDesc.findSome? (fun tier => scanChain st tier) with
  | some r => rw [hfs] at h; cases h
  | none =>
    rw [hfs] at h
    exact ⟨"No models available", by cases h; rfl⟩

lemma fallback_error_form {α : Type} (st : ManagerState α) (x : String)
    (e : ModelError) (h : get_fallback_model st x = Except.error e) :
    ∃ msg, e = ModelError.ModelNotFoundError msg := by
  cases hl : dictLookup st.models x with
  | none =>
    rw [get_fallback_unreg st x hl] at h
    exact best_error_form st e h
  | some i =>
    rw [get_fallback_reg st x i hl] at h
    cases h1 : scanChain st i.tier with
    | some r => rw [h1] at h; cases h
    | none =>
      rw [h1] at h
      cases h2 : (tiersBelow i.tier).findSome? (fun tier => scanChain st tier) with
      | some r => rw [h2] at h; cases h
      | none =>
        rw [h2] at h
        exact ⟨"No fallback models available", by cases h; rfl⟩

lemma get_fallback_error_iff {α : Type} (st : ManagerState α) (x : String) :
    (∃ msg, get_fallback_model st x
        = Except.error (ModelError.ModelNotFoundError msg))
      ↔ ∀ t : ModelTier, tierValue t ≤ tierValue (relevantTier st x)
          → scanChain st t = none := by
  cases hl : dictLookup st.models x with
  | none =>
    have hrt : relevantTier st x = ModelTier.PREMIUM := by
      unfold relevantTier; rw [hl]
    rw [get_fallback_unreg st x hl, hrt, best_available_error_iff]
    constructor
    · intro h t _
      exact h t
    · intro h t
      exact h t (tierValue_le_premium t)
  | some i =>
    have hrt : relevantTier st x = i.tier := by
      unfold relevantTier; rw [hl]
    rw [get_fallback_reg st x i hl, hrt]
    cases h1 : scanChain st i.tier with
    | some r =>
      constructor
      · intro ⟨m, hm⟩
        cases hm
      · intro hall
        exfalso
        have := hall i.tier (Nat.le_refl _)
        rw [h1] at this
        cases this
    | none =>
      cases h2 : (tiersBelow i.tier).findSome? (fun tier => scanChain st tier) with
      | some r =>
        constructor
        · intro ⟨m, hm⟩
          cases hm
        · intro hall
          exfalso
          obtain ⟨u, hu, hsu⟩ := List.exists_of_findSome?_eq_some h2
          have := hall u (Nat.le_of_lt (tiersBelow_lt i.tier u hu))
          rw [this] at hsu
          cases hsu
      | none =>
        constructor
        · intro _ t hle
          rcases (mem_tiersBelow_iff i.tier t).mp hle with rfl | hmem
          · exact h1
          · exact List.findSome?_eq_none_iff.mp h2 t hmem
        · intro _
          exact ⟨"No fallback models available", rfl⟩

lemma lookup_split {α : Type} (st : ManagerState α) (x : String) :
    dictLookup st.models x = none
      ∨ ∃ i, dictLookup st.models x = some i := by
  cases h : dictLookup st.models x with
  | none => exact Or.inl rfl
  | some i => exact Or.inr ⟨i, rfl⟩

/-- C2: get_model raises ModelNotFoundError exactly when either use_fallback
is false and the id is unregistered or registered-but-unavailable, or
use_fallback is true and fallback resolution finds no registered, available
chain candidate at or below the relevant tier; in every other case it returns
a (resolved_id, handle) pair, and every error it raises is a
ModelNotFoundError. -/
theorem C2_get_model_error_characterisation {α : Type} (st : ManagerState α)
    (x : String) (fb : Bool) :
    ((∃ msg, get_model st x fb
        = Except.error (ModelError.ModelNotFoundError msg))
      ↔ ((fb = false
            ∧ (dictLookup st.models x = none
               ∨ ∃ i, dictLookup st.models x = some i ∧ i.is_available = false))
         ∨ (fb = true
            ∧ (dictLookup st.models x = none
               ∨ ∃ i, dictLookup st.models x = some i ∧ i.is_available = false)
            ∧ ∀ t : ModelTier, tierValue t ≤ tierValue (relevantTier st x)
                → scanChain st t = none)))
      ∧ (∀ e, get_model st x fb = Except.error e
          → ∃ msg, e = ModelError.ModelNotFoundError msg) := by
  constructor
  · constructor
    · intro ⟨m, hm⟩
      rcases lookup_split st x with hl | ⟨i, hl⟩
      · rw [get_model_unreg st x fb hl] at hm
        cases fb with
        | false => exact Or.inl ⟨rfl, Or.inl hl⟩
        | true =>
          have hfb : get_fallback_model st x
              = Except.error (ModelError.ModelNotFoundError m) := hm
          have hall := (get_fallback_error_iff st x).mp ⟨m, hfb⟩
          exact Or.inr ⟨rfl, Or.inl hl, hall⟩
      · cases hav : i.is_available with
        | true =>
          rw [get_model_reg st x fb i hl, hav] at hm
          simp at hm
        | false =>
          rw [get_model_reg st x fb i hl, hav] at hm
          cases fb with
          | false => exact Or.inl ⟨rfl, Or.inr ⟨i, hl, hav⟩⟩
          | true =>
            have hfb : get_fallback_model st x
                = Except.error (ModelError.ModelNotFoundError m) := hm
            have hall := (get_fallback_error_iff st x).mp ⟨m, hfb⟩
            exact Or.inr ⟨rfl, Or.inr ⟨i, hl, hav⟩, hall⟩
    · rintro (⟨hfb, hna⟩ | ⟨hfb, hna, hall⟩)
      · subst hfb
        rcases hna with hl | ⟨i, hl, hav⟩
        · rw [get_model_unreg st x false hl]
          exact ⟨"Model not found", rfl⟩
        · rw [get_model_reg st x false i hl, hav]
          exact ⟨"Model is currently unavailable", rfl⟩
      · subst hfb
        obtain ⟨m, hfb⟩ := (get_fallback_error_iff st x).mpr hall
        rcases hna with hl | ⟨i, hl, hav⟩
        · rw [get_model_unreg st x true hl]
          exact ⟨m, hfb⟩
        · rw [get_model_reg st x true i hl, hav]
          exact ⟨m, hfb⟩
  · intro e h
    rcases lookup_split st x with hl | ⟨i, hl⟩
    · rw [get_model_unreg st x fb hl] at h
      cases fb with
      | false => exact ⟨"Model not found", by cases h; rfl⟩
      | true => exact fallback_error_form st x e h
    · cases hav : i.is_available with
      | true =>
        rw [get_model_reg st x fb i hl, hav] at h
        simp at h
      | false =>
        rw [get_model_reg st x fb i hl, hav] at h
        cases fb with
        | false => exact ⟨"Model is currently unavailable", by cases h; rfl⟩
        | true => exact fallback_error_form st x e h

/-- C1: for a registered but unavailable id, get_model with fallback returns
the first registered-and-available candidate of the chain of its own tier,
and otherwise the first one found walking the tiers strictly downward toward
BASIC, each chain in priority order; the resolved id always comes from a
chain of a tier no higher than the tier of the requested id. -/
theorem C1_fallback_tier_resolution {α : Type} (st : ManagerState α)
    (x : String) (i : ModelInfo α) (hreg : dictLookup st.models x = some i)
    (hunav : i.is_available = false) :
    ((get_model st x true).toOption.map Prod.fst
        = (specFirstAvail st i.tier).or (specFirstAvailBelow st i.tier))
      ∧ (∀ y h, get_model st x true = Except.ok (y, h)
          → ∃ t, tierValue t ≤ tierValue i.tier ∧ y ∈ st.fallback_chains t) := by
  have hgm : get_model st x true = get_fallback_model st x := by
    rw [get_model_reg st x true i hreg, hunav]
    rfl
  rw [hgm, get_fallback_reg st x i hreg]
  constructor
  · cases h1 : scanChain st i.tier with
    | some r =>
      have hf := scanChain_fst st i.tier
      rw [h1] at hf
      simp only [Option.map_some'] at hf
      rw [← hf]
      rfl
    | none =>
      have hf := scanChain_fst st i.tier
      rw [h1] at hf
      simp only [Option.map_none'] at hf
      cases h2 : (tiersBelow i.tier).findSome? (fun tier => scanChain st tier) with
      | some r =>
        have hb := tiersFind_fst st (tiersBelow i.tier)
        rw [h2] at hb
        simp only [Option.map_some'] at hb
        rw [← hf]
        unfold specFirstAvailBelow
        rw [← hb]
        rfl
      | none =>
        have hb := tiersFind_fst st (tiersBelow i.tier)
        rw [h2] at hb
        simp only [Option.map_none'] at hb
        rw [← hf]
        unfold specFirstAvailBelow
        rw [← hb]
        rfl
  · intro y h heq
    cases h1 : scanChain st i.tier with
    | some r =>
      rw [h1] at heq
      have hr : r = (y, h) := by simpa using heq
      exact ⟨i.tier, Nat.le_refl _, (scanChain_some st i.tier y h (hr ▸ h1)).1⟩
    | none =>
      rw [h1] at heq
      cases h2 : (tiersBelow i.tier).findSome? (fun tier => scanChain st tier) with
      | some r =>
        rw [h2] at heq
        have hr : r = (y, h) := by simpa using heq
        obtain ⟨u, hu, hsu⟩ := List.exists_of_findSome?_eq_some (hr ▸ h2)
        exact ⟨u, Nat.le_of_lt (tiersBelow_lt i.tier u hu),
          (scanChain_some st u y h hsu).1⟩
      | none =>
        rw [h2] at heq
        cases heq

/-- Witness for C1 at a concrete input: in stW1 the unavailable model a
resolves to b, the first available candidate of the PREMIUM chain. -/
theorem C1_witness :
    (get_model stW1 "a" true).toOption.map Prod.fst = some "b" := by
  have h := (C1_fallback_tier_resolution stW1 "a"
    { model := 1, tier := ModelTier.PREMIUM, is_available := false, error_count := 3, max_errors := 3 } rfl rfl).1
  rw [h]
  rfl

/-- Witness for C2 at a concrete input: an unknown id with fallback disabled
raises ModelNotFoundError on a fresh manager. -/
theorem C2_witness :
    ∃ msg, get_model (freshManager Nat) "nonexistent-id" false
      = Except.error (ModelError.ModelNotFoundError msg) :=
  (C2_get_model_error_characterisation (freshManager Nat) "nonexistent-id"
    false).1.mpr (Or.inl ⟨rfl, Or.inl rfl⟩)

/-- Witness for C9 at a concrete input: the id b resolved by fallback in stW1
occurs in a fallback chain. -/
theorem C9_witness : ∃ t : ModelTier, "b" ∈ stW1.fallback_chains t :=
  (C9_resolved_id_in_some_chain stW1).1 "a" "b" 2 rfl

lemma mark_keys {α : Type} (st : ManagerState α) (x : String) :
    (mark_model_error st x).models.map Prod.fst = st.models.map Prod.fst := by
  cases hx : dictLookup st.models x with
  | none => rw [mark_unknown st x hx]
  | some i => rw [mark_models_eq st x i hx, dictModify_keys]

lemma reset_keys {α : Type} (st : ManagerState α) (x : String) :
    (reset_model_status st x).models.map Prod.fst = st.models.map Prod.fst := by
  cases hx : dictLookup st.models x with
  | none => rw [reset_unknown st x hx]
  | some i => rw [reset_models_eq st x i hx, dictModify_keys]

/-- Counterexample to C3: in stFoo the registry contains the available model
foo, yet best-available selection fails because foo occurs in no chain. -/
theorem C3_counterexample : ¬ c3Claim := by
  intro h
  have h2 := (h stFoo).mp ⟨"No models available", rfl⟩
  have h3 : list_available_models stFoo none = ["foo"] := rfl
  rw [h3] at h2
  cases h2

/-- C3 (amended): get_best_available_model returns the first registered,
available candidate scanning tiers PREMIUM down to BASIC, each chain in
priority order, as (id, handle); it fails with ModelNotFoundError iff no
tier chain contains a registered, available candidate, which can happen even
while the registry holds available models that occur in no chain. -/
theorem C3_best_available_amended {α : Type} (st : ManagerState α) :
    ((get_best_available_model st).toOption.map Prod.fst = specBestAvail st)
      ∧ (∀ y h, get_best_available_model st = Except.ok (y, h)
          → ∃ i, dictLookup st.models y = some i ∧ i.is_available = true
              ∧ i.model = h)
      ∧ ((∃ msg, get_best_available_model st
            = Except.error (ModelError.ModelNotFoundError msg))
          ↔ ∀ t : ModelTier, scanChain st t = none) := by
  refine ⟨?_, ?_, best_available_error_iff st⟩
  · unfold get_best_available_model specBestAvail
    cases hfs : tiersDesc.findSome? (fun tier => scanChain st tier) with
    | some r =>
      have hb := tiersFind_fst st tiersDesc
      rw [hfs] at hb
      simp only [Option.map_some'] at hb
      rw [← hb]
      rfl
    | none =>
      have hb := tiersFind_fst st tiersDesc
      rw [hfs] at hb
      simp only [Option.map_none'] at hb
      rw [← hb]
      rfl
  · intro y h heq
    exact (best_available_ok st y h heq).2

/-- Witness for the amended C3 at a concrete input: on a fresh manager with
no registered model every chain scan fails, so selection raises. -/
theorem C3_witness :
    ∃ msg, get_best_available_model (freshManager Nat)
      = Except.error (ModelError.ModelNotFoundError msg) :=
  (C3_best_available_amended (freshManager Nat)).2.2.mpr
    (fun t => by cases t <;> rfl)

/-- Counterexample to C4: re-registering gpt-4 after it became unavailable
restores is_available without a reset, because register_model overwrites the
record with a fresh available one. -/
theorem C4_counterexample : ¬ c4StaysClaim := by
  intro h
  have hdead : dictLookup stDead.models "gpt-4"
      = some { model := 1, tier := ModelTier.PREMIUM, is_available := false, error_count := 3, max_errors := 3 } := rfl
  have hc := h stDead "gpt-4" _ ⟨opsDead, rfl⟩ hdead rfl
    (MOp.registerOp "gpt-4" 1 ModelTier.PREMIUM) (fun hc => MOp.noConfusion hc)
    { model := 1, tier := ModelTier.PREMIUM } rfl
  cases hc

/-- C4 (amended): in every reachable state every registered record with
error_count below max_errors is available; and an unavailable record stays
unavailable under every operation that is neither a reset of its id nor a
re-registration of its id (register_model overwrites the record with a fresh
available one). -/
theorem C4_invariant_amended {α : Type} (st : ManagerState α)
    (hre : Reachable st) :
    (∀ p ∈ st.models, p.2.error_count < p.2.max_errors
        → p.2.is_available = true)
      ∧ (∀ (x : String) (i : ModelInfo α), dictLookup st.models x = some i
          → i.is_available = false
          → ∀ op : MOp α, op ≠ MOp.resetOp x
          → (∀ m t, op ≠ MOp.registerOp x m t)
          → ∀ i', dictLookup (applyOp st op).models x = some i'
            → i'.is_available = false) := by
  refine ⟨reachable_recordsInv st hre, ?_⟩
  intro x i hx hunav op hnr hnreg i' hx'
  cases op with
  | resetOp y =>
    by_cases hxy : y = x
    · subst hxy
      exact absurd rfl hnr
    · rw [show applyOp st (MOp.resetOp y) = reset_model_status st y from rfl,
        reset_lookup_other st y x (fun h => hxy h.symm)] at hx'
      have hii : i = i' := by simpa using hx.symm.trans hx'
      rw [← hii]
      exact hunav
  | registerOp y m t =>
    by_cases hxy : y = x
    · subst hxy
      exact absurd rfl (hnreg m t)
    · rw [show applyOp st (MOp.registerOp y m t) = register_model st y m t from rfl,
        register_lookup st y m t x, if_neg (fun h : x = y => hxy h.symm)] at hx'
      have hii : i = i' := by simpa using hx.symm.trans hx'
      rw [← hii]
      exact hunav
  | getModelOp y fb =>
    have hii : i = i' := by simpa using hx.symm.trans hx'
    rw [← hii]
    exact hunav
  | markErrorOp y =>
    by_cases hxy : y = x
    · subst hxy
      rw [show applyOp st (MOp.markErrorOp y) = mark_model_error st y from rfl,
        mark_lookup_self st y i hx] at hx'
      have hii : (if i.error_count + 1 ≥ i.max_errors
          then { i with error_count := i.error_count + 1, is_available := false }
          else { i with error_count := i.error_count + 1 }) = i' := by
        simpa using hx'
      rw [← hii]
      by_cases hth : i.error_count + 1 ≥ i.max_errors
      · rw [if_pos hth]
      · rw [if_neg hth]
        exact hunav
    · rw [show applyOp st (MOp.markErrorOp y) = mark_model_error st y from rfl,
        mark_lookup_other st y x (fun h => hxy h.symm)] at hx'
      have hii : i = i' := by simpa using hx.symm.trans hx'
      rw [← hii]
      exact hunav

/-- Witness for the amended C4 at a concrete input: a further mark on the
already unavailable gpt-4 keeps it unavailable. -/
theorem C4_witness :
    ({ model := 1, tier := ModelTier.PREMIUM, is_available := false, error_count := 4, max_errors := 3 } : ModelInfo Nat).is_available = false :=
  (C4_invariant_amended stDead ⟨opsDead, rfl⟩).2 "gpt-4"
    { model := 1, tier := ModelTier.PREMIUM, is_available := false, error_count := 3, max_errors := 3 } rfl rfl
    (MOp.markErrorOp "gpt-4") (fun hc => MOp.noConfusion hc)
    (fun _ _ hc => MOp.noConfusion hc)
    { model := 1, tier := ModelTier.PREMIUM, is_available := false, error_count := 4, max_errors := 3 } rfl

/-- C5: a registered record with error_count 0 (and the default threshold 3)
disappears from list_available_models after three mark_model_error calls, and
a subsequent reset_model_status makes it reappear with error_count 0.
The key-uniqueness hypothesis is the dict representation invariant. -/
theorem C5_threshold_exclusion_and_reset {α : Type} (st : ManagerState α)
    (x : String) (i : ModelInfo α)
    (hnd : (st.models.map Prod.fst).Nodup)
    (hx : dictLookup st.models x = some i)
    (hec : i.error_count = 0) (hme : i.max_errors = 3) :
    x ∉ list_available_models
        (mark_model_error (mark_model_error (mark_model_error st x) x) x) none
      ∧ x ∈ list_available_models
          (reset_model_status
            (mark_model_error (mark_model_error (mark_model_error st x) x) x) x)
          none
      ∧ (dictLookup (reset_model_status
            (mark_model_error (mark_model_error (mark_model_error st x) x) x)
            x).models x).map (fun j => j.error_count) = some 0 := by
  have h1 := mark_lookup_self st x i hx
  rw [hec, hme, if_neg (by decide : ¬ (0 + 1 ≥ 3))] at h1
  have h2 := mark_lookup_self (mark_model_error st x) x _ h1
  dsimp only at h2
  rw [if_neg (by decide : ¬ (0 + 1 + 1 ≥ 3))] at h2
  have h3 := mark_lookup_self (mark_model_error (mark_model_error st x) x) x _ h2
  dsimp only at h3
  rw [if_pos (by decide : 0 + 1 + 1 + 1 ≥ 3)] at h3
  have hnd3 : (((mark_model_error (mark_model_error (mark_model_error st x) x)
      x).models.map Prod.fst)).Nodup := by
    rw [mark_keys, mark_keys, mark_keys]
    exact hnd
  have hnd4 : (((reset_model_status (mark_model_error (mark_model_error
      (mark_model_error st x) x) x) x).models.map Prod.fst)).Nodup := by
    rw [reset_keys, mark_keys, mark_keys, mark_keys]
    exact hnd
  have h4 := reset_lookup_self _ x _ h3
  dsimp only at h4
  refine ⟨?_, ?_, ?_⟩
  · intro hmem
    obtain ⟨j, hj, hjav⟩ := (mem_list_available _ x hnd3).mp hmem
    rw [h3] at hj
    have hj' := Option.some.inj hj
    rw [← hj'] at hjav
    cases hjav
  · exact (mem_list_available _ x hnd4).mpr ⟨_, h4, rfl⟩
  · rw [h4]
    rfl

/-- Witness for C5 at a concrete input: after three marks the model m is
excluded from the available list. -/
theorem C5_witness :
    "m" ∉ list_available_models
        (mark_model_error (mark_model_error (mark_model_error stC5 "m") "m") "m")
        none :=
  (C5_threshold_exclusion_and_reset stC5 "m"
    { model := 5, tier := ModelTier.BASIC } (by decide) rfl rfl rfl).1

/-- Counterexample to C6: on a fresh manager with no registered model the
fallback call for an unregistered id raises instead of returning a model. -/
theorem C6_counterexample : ¬ c6Claim := by
  intro h
  obtain ⟨y, hm, heq, -⟩ := (h (freshManager Nat) "nonexistent-id" rfl).2
  have hfresh : get_model (freshManager Nat) "nonexistent-id" true
      = Except.error (ModelError.ModelNotFoundError "No models available") := rfl
  rw [hfresh] at heq
  cases heq

/-- C6 (amended): for an unregistered id, get_model without fallback raises
ModelNotFoundError, and with fallback it resolves directly via best-available
selection; whenever that selection succeeds the returned model is registered
and available (it raises when no chain holds a registered, available
candidate). -/
theorem C6_unregistered_amended {α : Type} (st : ManagerState α) (x : String)
    (hx : dictLookup st.models x = none) :
    (∃ msg, get_model st x false
        = Except.error (ModelError.ModelNotFoundError msg))
      ∧ get_model st x true = get_best_available_model st
      ∧ (∀ y h, get_model st x true = Except.ok (y, h)
          → ∃ i, dictLookup st.models y = some i ∧ i.is_available = true
              ∧ i.model = h) := by
  refine ⟨⟨"Model not found", ?_⟩, ?_, ?_⟩
  · rw [get_model_unreg st x false hx]
    rfl
  · rw [get_model_unreg st x true hx, get_fallback_unreg st x hx]
    rfl
  · intro y h heq
    rw [get_model_unreg st x true hx] at heq
    have hb : get_best_available_model st = Except.ok (y, h) := by
      rw [← get_fallback_unreg st x hx]
      exact heq
    exact (best_available_ok st y h hb).2

/-- Witness for the amended C6 at a concrete input: an unregistered id on a
fresh manager resolves through best-available selection. -/
theorem C6_witness :
    get_model (freshManager Nat) "q" true
      = get_best_available_model (freshManager Nat) :=
  (C6_unregistered_amended (freshManager Nat) "q" rfl).2.1
